import Mathlib

/-!
Shallow embedding of the pagination engine and user service of the
simple_model repository (src/utils/pagination.py, src/services/user_service.py,
src/api/graphql_types.py), together with theorems that settle the frozen
claims about it.

Modelling conventions, used throughout:
the Mongo ObjectId assigned to a document is modelled as a natural number
that is strictly increasing in insertion order (the oid field); datetimes
are natural numbers; a collection is a list of documents kept in insertion
order, which is also ascending oid order, so a find with the default sort
(oid ascending) is list filtering.  Python dicts that keep insertion order
are association lists with an overwriting setKey.  Filter parameter dicts
are modelled as holding only the entries whose value is not None, because
the source skips None values when compiling filters and the callers build
the dicts that way.
-/

/-- Values stored in a document field of the users or friendships collection. -/
inductive MVal where
  | str (s : String)
  | bool (b : Bool)
  | nat (n : Nat)
deriving DecidableEq

/-- Python values that occur inside a filter_params dict in this codebase:
plain scalars, an in-operator dict as passed by get_mutual_friends, and the
list of sub-dicts that get_users_with_filters stores under the or key. -/
inductive PVal where
  | str (s : String)
  | bool (b : Bool)
  | nat (n : Nat)
  | inOp (vs : List String)
  | orList (cs : List (List (String × PVal)))

/-- Values of the store-native query dict built by the code: a raw value
(equality or operator semantics decided by its shape), a case-insensitive
regex, and the range operators produced by get_filtered_users_count, where
gtltOp is the dict holding both a strict lower and a strict upper bound. -/
inductive QVal where
  | pv (v : PVal)
  | regexI (p : PVal)
  | gtOp (p : PVal)
  | ltOp (p : PVal)
  | gtltOp (lo hi : PVal)

abbrev MQuery := List (String × QVal)

abbrev FilterParams := List (String × PVal)

/-- A document of the users collection, with the fields create_user writes. -/
structure URec where
  oid : Nat
  uuid : String
  email : String
  name : String
  is_active : Bool
  created_at : Nat
  updated_at : Nat
  referral_code : String
  referred_by : Option String
deriving DecidableEq

/-- A document of the friendships collection, as send_friend_request writes it. -/
structure FRec where
  oid : Nat
  uuid : String
  user1_uuid : String
  user2_uuid : String
  created_at : Nat
deriving DecidableEq

/-- The database: the two collections, each kept in insertion order. -/
structure DB where
  users : List URec
  friendships : List FRec
deriving DecidableEq

/-- Python dict assignment d[k] = v on an insertion-ordered association
list: overwrite in place when the key is present, else append. -/
def setKey {α : Type} (q : List (String × α)) (k : String) (v : α) :
    List (String × α) :=
  if q.any (fun p => p.1 == k) then
    q.map (fun p => if p.1 == k then (k, v) else p)
  else q ++ [(k, v)]

/-- Python dict lookup d.get(k) on an association list. -/
def getKey {α : Type} (q : List (String × α)) (k : String) : Option α :=
  (q.find? (fun p => p.1 == k)).map (fun p => p.2)

/-- Boolean substring occurrence test on character lists. -/
def listContains (needle : List Char) : List Char → Bool
  | [] => needle.isEmpty
  | c :: t => needle.isPrefixOf (c :: t) || listContains needle t

/-- Lower-case a string character by character. -/
def lowerChars (s : String) : List Char :=
  s.toList.map Char.toLower

/-- Case-insensitive substring match: the semantics of a Mongo regex with
option i for the literal (regex-free) patterns this codebase passes. -/
def containsSub (hay pat : String) : Bool :=
  listContains (lowerChars pat) (lowerChars hay)

/-- Python str.endswith on the character lists of the two strings. -/
def strEndsWith (s suffix : String) : Bool :=
  suffix.toList.isSuffixOf s.toList

/-- The replace call of compileParam, which erases the fixed nonempty
contains suffix pattern from the mapped key: every mapped key this code
ever produces holds that pattern at most once and only as a suffix, so
replacing its occurrences by the empty string is stripping the suffix when
present. -/
def stripContainsSuffix (s : String) : String :=
  if strEndsWith s "_contains" then
    String.mk (s.toList.take (s.toList.length - "_contains".length))
  else s

/-- The value a user document holds under a given Mongo field name; none
when the document has no such field (referred_by is only present when
create_user resolved a referrer, and users never carry other fields). -/
def fieldVal (u : URec) : String → Option MVal
  | "_id" => some (MVal.nat u.oid)
  | "uuid" => some (MVal.str u.uuid)
  | "email" => some (MVal.str u.email)
  | "name" => some (MVal.str u.name)
  | "is_active" => some (MVal.bool u.is_active)
  | "created_at" => some (MVal.nat u.created_at)
  | "updated_at" => some (MVal.nat u.updated_at)
  | "referral_code" => some (MVal.str u.referral_code)
  | "referred_by" => u.referred_by.map MVal.str
  | _ => none

/-- Mongo semantics of a raw value in field position: scalars match by
equality (a missing field matches nothing here, since no None values reach
the query), an in-operator dict tests membership, and a list value never
equals the scalar fields our documents hold. -/
def fieldMatch (fv : Option MVal) : PVal → Bool
  | PVal.str s => fv == some (MVal.str s)
  | PVal.bool b => fv == some (MVal.bool b)
  | PVal.nat n => fv == some (MVal.nat n)
  | PVal.inOp vs => match fv with
    | some (MVal.str s) => vs.contains s
    | _ => false
  | PVal.orList _ => false

/-- Mongo semantics of one query-dict value against a field value. -/
def matchVal (fv : Option MVal) : QVal → Bool
  | QVal.pv v => fieldMatch fv v
  | QVal.regexI p => match p, fv with
    | PVal.str pat, some (MVal.str s) => containsSub s pat
    | _, _ => false
  | QVal.gtOp p => match p, fv with
    | PVal.nat n, some (MVal.nat m) => decide (n < m)
    | _, _ => false
  | QVal.ltOp p => match p, fv with
    | PVal.nat n, some (MVal.nat m) => decide (m < n)
    | _, _ => false
  | QVal.gtltOp lo hi => match lo, hi, fv with
    | PVal.nat a, PVal.nat b, some (MVal.nat m) => decide (a < m) && decide (m < b)
    | _, _, _ => false

/-- Mongo semantics of one query-dict entry: the or key takes a list of
sub-dicts, each a conjunction of plain field/value equalities exactly as the
code passes them through; every other key is a field condition. -/
def matchClause (u : URec) (kv : String × QVal) : Bool :=
  if kv.1 == "$or" then
    match kv.2 with
    | QVal.pv (PVal.orList cs) =>
        cs.any (fun c => c.all (fun p => fieldMatch (fieldVal u p.1) p.2))
    | _ => false
  else matchVal (fieldVal u kv.1) kv.2

/-- A document matches a query when it satisfies every entry of the dict. -/
def matchQuery (u : URec) (q : MQuery) : Bool :=
  q.all (matchClause u)

/-- One iteration of the filter loop in CursorPagination.paginate: map the
key through field_mappings, compile keys ending in the contains suffix to a
case-insensitive regex on the stripped field name, and copy every other
value into the query verbatim. -/
def compileParam (fm : List (String × String)) (q : MQuery)
    (kv : String × PVal) : MQuery :=
  let mapped_key := (getKey fm kv.1).getD kv.1
  if strEndsWith kv.1 "_contains" then
    setKey q (stripContainsSuffix mapped_key) (QVal.regexI kv.2)
  else
    setKey q mapped_key (QVal.pv kv.2)

/-- Query construction of CursorPagination.paginate: start empty, conjoin
the strict lower bound on the document id when a cursor is given, then fold
the filter params through the compiler in source order. -/
def buildQuery (fm : List (String × String)) (after : Option Nat)
    (fp : Option FilterParams) : MQuery :=
  let q : MQuery := []
  let q := match after with
    | some c => setKey q "_id" (QVal.gtOp (PVal.nat c))
    | none => q
  match fp with
  | none => q
  | some ps => ps.foldl (compileParam fm) q

/-- CursorPagination.paginate of src/utils/pagination.py over the users
collection.  The limit is the Python expression first or 10, so an absent
or zero page size silently becomes 10; order_by is None in everything the
claims touch, in which case the source sorts by id ascending, which is the
order the store list already keeps, so find is filtering followed by take;
negative page sizes never reach this layer in the claims and are not
modelled.  The over-fetch requests limit + 1 documents, sets the
has-next flag when all limit + 1 arrived, and then drops the extra one. -/
def paginate (fm : List (String × String)) (store : List URec)
    (first : Option Nat) (after : Option Nat) (fp : Option FilterParams) :
    List URec × Bool :=
  let query := buildQuery fm after fp
  let limit := match first with
    | none => 10
    | some n => if n == 0 then 10 else n
  let results := (store.filter (fun u => matchQuery u query)).take (limit + 1)
  let has_next_page := decide (limit < results.length)
  (if has_next_page then results.dropLast else results, has_next_page)

/-- The users that match what paginate queries for: the records the store
holds past the cursor that satisfy the compiled filter, in id order. -/
def matchingRecords (fm : List (String × String)) (store : List URec)
    (after : Option Nat) (fp : Option FilterParams) : List URec :=
  store.filter (fun u => matchQuery u (buildQuery fm after fp))

/-- The field_mappings the users paginator is constructed with in
UserService.get_users_with_filters. -/
def userFieldMappings : List (String × String) :=
  [("name_contains", "name"), ("email_contains", "email"),
   ("created_after", "created_at"), ("created_before", "created_at"),
   ("is_active", "is_active")]

/-- UserService.get_users_with_filters: when a non-empty search string is
given, store under the or key of the filter dict the two uncompiled
sub-dicts, one per contains key, exactly as the source builds them, then
call the users paginator. -/
def get_users_with_filters (store : List URec) (first : Nat)
    (after : Option Nat) (fp : Option FilterParams)
    (search_query : Option String) : List URec × Bool :=
  let fp2 := match search_query with
    | some q =>
        if q.isEmpty then fp
        else some (setKey (fp.getD [])
          "$or" (PVal.orList [[("name_contains", PVal.str q)],
                              [("email_contains", PVal.str q)]]))
    | none => fp
  paginate userFieldMappings store (some first) after fp2

/-- The query built by UserService.get_filtered_users_count: a fixed chain
of key tests in source order.  The created_before branch models the Python
setdefault mutation: when created_at already holds the strict lower bound
put there by the created_after branch, the strict upper bound is added to
the same operator dict, else a fresh upper-bound-only dict is written; the
catch-all branch is unreachable because created_at can only have been set
by the created_after branch at that point. -/
def countQuery (fp : Option FilterParams) : MQuery :=
  match fp with
  | none => []
  | some ps =>
    let q : MQuery := []
    let q := match getKey ps "name_contains" with
      | some v => setKey q "name" (QVal.regexI v)
      | none => q
    let q := match getKey ps "email_contains" with
      | some v => setKey q "email" (QVal.regexI v)
      | none => q
    let q := match getKey ps "is_active" with
      | some v => setKey q "is_active" (QVal.pv v)
      | none => q
    let q := match getKey ps "created_after" with
      | some v => setKey q "created_at" (QVal.gtOp v)
      | none => q
    let q := match getKey ps "created_before" with
      | some v => match getKey q "created_at" with
        | some (QVal.gtOp lo) => setKey q "created_at" (QVal.gtltOp lo v)
        | some _ => q
        | none => setKey q "created_at" (QVal.ltOp v)
      | none => q
    let q := match getKey ps "referred_by" with
      | some v => setKey q "referred_by" (QVal.pv v)
      | none => q
    q

/-- UserService.get_filtered_users_count: count the users matching the
compiled count query. -/
def get_filtered_users_count (store : List URec) (fp : Option FilterParams) :
    Nat :=
  (store.filter (fun u => matchQuery u (countQuery fp))).length

/-- Mongo find_one on users by uuid: the first document with that uuid. -/
def findUser (db : DB) (u : String) : Option URec :=
  db.users.find? (fun x => x.uuid == u)

/-- The counterpart uuid a friendship contributes for a given user, the
addFields stage of the get_friends pipeline. -/
def counterpartUuid (f : FRec) (user_uuid : String) : String :=
  if f.user1_uuid == user_uuid then f.user2_uuid else f.user1_uuid

/-- UserService.get_friends: the aggregation pipeline on the friendships
collection.  When a cursor is given the source prepends a match on the
friendship document id being strictly greater than it; then friendships
touching the user are kept, each is mapped to its counterpart user document
through lookup plus unwind plus replaceRoot (the uuid field has a unique
index, so the lookup yields at most one user, and unwind drops friendships
whose counterpart is missing); the limit stage requests limit + 1
documents, the has-next flag compares against limit, and the page keeps the
first limit documents. -/
def get_friends (db : DB) (user_uuid : String) (limit : Nat)
    (cursor : Option Nat) : List URec × Bool :=
  let base : List FRec := match cursor with
    | some c => db.friendships.filter (fun f => decide (c < f.oid))
    | none => db.friendships
  let matched : List FRec := base.filter
    (fun f => f.user1_uuid == user_uuid || f.user2_uuid == user_uuid)
  let friends : List URec := matched.filterMap
    (fun f => db.users.find? (fun u => u.uuid == counterpartUuid f user_uuid))
  let friends := friends.take (limit + 1)
  let has_next_page := decide (limit < friends.length)
  (friends.take limit, has_next_page)

/-- The cursors the GraphQL friends field issues for a page: the edge of
each returned friend carries the stringified document id of that user
document (User.friends in src/api/graphql_types.py). -/
def friendsEdgeCursors (db : DB) (user_uuid : String) (first : Nat)
    (after : Option Nat) : List Nat :=
  (get_friends db user_uuid first after).1.map (fun u => u.oid)

/-- The one runtime error kind the mutual-friends path can raise. -/
inductive PyError where
  | typeError
deriving DecidableEq

/-- An element produced by iterating the Python tuple that get_friends
returns: first its list of user documents, then its boolean flag. -/
inductive PyTupElem where
  | fst (l : List URec)
  | snd (b : Bool)

/-- Iterating the pair as Python iterates a tuple. -/
def tupleElems (p : List URec × Bool) : List PyTupElem :=
  [PyTupElem.fst p.1, PyTupElem.snd p.2]

/-- Subscripting one iterated element with the string key uuid: a Python
list does not support string subscripts and neither does a bool, so either
element raises TypeError. -/
def subscriptUuid : PyTupElem → Except PyError String
  | PyTupElem.fst _ => Except.error PyError.typeError
  | PyTupElem.snd _ => Except.error PyError.typeError

/-- The set comprehension in get_mutual_friends, iterating directly over
the pair returned by get_friends and subscripting each element with the
string key uuid. -/
def friendUuidSet (p : List URec × Bool) : Except PyError (List String) :=
  (tupleElems p).mapM subscriptUuid

/-- Python set intersection materialised as a list; only reachable if the
comprehensions above were to succeed. -/
def pyIntersection (a b : List String) : List String :=
  a.filter (fun x => b.contains x)

/-- UserService.get_mutual_friends: build the friend uuid set of each user
from a call to get_friends with its defaults (limit 10, no cursor),
intersect, and paginate the users collection with an in-operator filter on
uuid through a paginator constructed with empty field mappings. -/
def get_mutual_friends (db : DB) (user1_uuid user2_uuid : String)
    (limit : Nat) (cursor : Option Nat) : Except PyError (List URec × Bool) := do
  let s1 ← friendUuidSet (get_friends db user1_uuid 10 none)
  let s2 ← friendUuidSet (get_friends db user2_uuid 10 none)
  let mutual_friend_uuids := pyIntersection s1 s2
  pure (paginate [] db.users (some limit) cursor
    (some [("uuid", PVal.inOp mutual_friend_uuids)]))

/-- The typed failures of send_friend_request, one per ValueError message. -/
inductive SFRErr where
  | userNotFound
  | selfFriendship
  | alreadyFriends
deriving DecidableEq

/-- Mongo find_one on friendships with the or-of-both-orderings query used
by send_friend_request. -/
def friendshipBetween (db : DB) (a b : String) : Option FRec :=
  db.friendships.find? (fun f =>
    (f.user1_uuid == a && f.user2_uuid == b) ||
    (f.user1_uuid == b && f.user2_uuid == a))

/-- UserService.send_friend_request: check both endpoints exist, then
reject self-friendship, then reject when a friendship matching either
ordering exists, else insert a fresh friendship document (Mongo assigns
the new document id, uuid4 the uuid, and datetime.now the timestamp; all
three are passed in).  The resulting store is returned alongside, unchanged
on every error path. -/
def send_friend_request (db : DB) (from_uuid to_uuid : String)
    (new_oid : Nat) (new_uuid : String) (now : Nat) :
    Except SFRErr FRec × DB :=
  if (findUser db from_uuid).isNone || (findUser db to_uuid).isNone then
    (Except.error SFRErr.userNotFound, db)
  else if from_uuid == to_uuid then
    (Except.error SFRErr.selfFriendship, db)
  else match friendshipBetween db from_uuid to_uuid with
    | some _ => (Except.error SFRErr.alreadyFriends, db)
    | none =>
      let fr : FRec := ⟨new_oid, new_uuid, from_uuid, to_uuid, now⟩
      (Except.ok fr, { db with friendships := db.friendships ++ [fr] })

/-- The patch body of patch_user: a field is none when the request did not
pass it, so model_dump with exclude_unset drops it (a field explicitly
passed as null is not modelled; the claims never exercise it). -/
structure UserPatch where
  email : Option String
  name : Option String
  is_active : Option Bool

/-- True exactly when model_dump with exclude_unset returns an empty dict. -/
def patchIsEmpty (p : UserPatch) : Bool :=
  p.email.isNone && p.name.isNone && p.is_active.isNone

/-- The Mongo set-update applied by find_one_and_update: overwrite exactly
the provided fields and stamp updated_at; every other field is untouched. -/
def applyPatch (u : URec) (p : UserPatch) (now : Nat) : URec :=
  { u with email := p.email.getD u.email,
           name := p.name.getD u.name,
           is_active := p.is_active.getD u.is_active,
           updated_at := now }

/-- Mongo find_one_and_update on users by uuid: rewrite the first matching
document in place, leaving the rest of the collection as it was. -/
def updateFirst (l : List URec) (uuid : String) (p : UserPatch) (now : Nat) :
    List URec :=
  match l with
  | [] => []
  | x :: xs =>
    if x.uuid == uuid then applyPatch x p now :: xs
    else x :: updateFirst xs uuid p now

/-- UserService.patch_user: when the patch sets no field, perform no write
and answer with a plain lookup; otherwise find_one_and_update with the
set-document plus a refreshed updated_at, returning the document after the
update (return_document true), or none when no user has that uuid.  The
store after the call is returned alongside.  The unique email index of the
store can additionally reject a colliding email patch; that rejection lives
in the store, not in this function, and is not modelled. -/
def patch_user (db : DB) (uuid : String) (p : UserPatch) (now : Nat) :
    Option URec × DB :=
  if patchIsEmpty p then (findUser db uuid, db)
  else match findUser db uuid with
    | none => (none, db)
    | some u =>
      (some (applyPatch u p now),
       { db with users := updateFirst db.users uuid p now })

/-- True when no user of the store already holds the candidate referral
code: the find_one test of _ensure_unique_referral_code. -/
def referralCodeFree (db : DB) (code : String) : Bool :=
  (db.users.find? (fun u => u.referral_code == code)).isNone

/-- The while-True loop of UserService._ensure_unique_referral_code,
unrolled: gen k is the k-th token secrets.token_urlsafe produces, start is
the index of the next token to try, and fuel bounds how many iterations we
observe.  The answer none means the loop is still running after fuel
iterations; the source loop has no iteration cap and no failure path, its
only exit is returning a token the store does not yet hold. -/
def ensureUniqueFrom (db : DB) (gen : Nat → String) (start : Nat) :
    Nat → Option String
  | 0 => none
  | fuel + 1 =>
    let code := gen start
    if referralCodeFree db code then some code
    else ensureUniqueFrom db gen (start + 1) fuel

/-- A store with a single user, used by several concrete checks. -/
def alice : URec :=
  ⟨1, "alice-uuid", "alice@example.com", "Alice Smith", true, 0, 0, "codeA", none⟩

/-- User created at time 7, inside the open range 5 to 10. -/
def u7 : URec :=
  ⟨2, "u7", "seven@example.com", "User Seven", true, 7, 7, "code7", none⟩

/-- User created at time 10, outside an exclusive upper bound of 10. -/
def u10 : URec :=
  ⟨3, "u10", "ten@example.com", "User Ten", true, 10, 10, "code10", none⟩

/-- Store for the range-filter check. -/
def c4store : List URec := [u7, u10]

/-- Filter with both range predicates present. -/
def c4fp : FilterParams :=
  [("created_after", PVal.nat 5), ("created_before", PVal.nat 10)]

/-- Length of the page a paginate-shaped result can have: the over-fetched
list is cut back to at most the limit whether or not the extra record came. -/
theorem page_items_length_le {α : Type} (l : List α) (k : Nat) :
    (if decide (k < (l.take (k + 1)).length) = true
     then (l.take (k + 1)).dropLast else l.take (k + 1)).length ≤ k := by
  have hl := List.length_take_le (k + 1) l
  by_cases h : k < (l.take (k + 1)).length
  · rw [if_pos (decide_eq_true h), List.length_dropLast]
    omega
  · rw [if_neg (by simpa using h)]
    omega

/-- Dropping the last element of the first n + 1 elements leaves the first
n elements, provided the list is long enough to supply n + 1 of them. -/
theorem dropLast_take_succ {α : Type} (l : List α) (n : Nat)
    (h : n + 1 ≤ l.length) : (l.take (n + 1)).dropLast = l.take n := by
  rw [List.dropLast_eq_take, List.take_take, List.length_take]
  have h1 : min (n + 1) l.length = n + 1 := Nat.min_eq_left h
  rw [h1]
  have h2 : min (n + 1 - 1) (n + 1) = n := by omega
  rw [h2]

/-- Unfolding of paginate at a nonzero page size: the page is the
over-fetched prefix of the matching records with the extra record dropped
when all n + 1 arrived, and the flag records whether they did. -/
theorem paginate_some_pos (fm : List (String × String)) (store : List URec)
    (n : Nat) (hne : (n == 0) = false) (after : Option Nat)
    (fp : Option FilterParams) :
    paginate fm store (some n) after fp =
      (if decide (n < ((matchingRecords fm store after fp).take (n + 1)).length) = true
       then ((matchingRecords fm store after fp).take (n + 1)).dropLast
       else (matchingRecords fm store after fp).take (n + 1),
       decide (n < ((matchingRecords fm store after fp).take (n + 1)).length)) := by
  cases n with
  | zero => simp at hne
  | succ k => rfl

/-- C1: for every store state, field mapping, filter, page size n of at
least 1, and cursor, paginate over-fetches n + 1 matching records and
returns at most n items: the page is the first n matching records, the
extra over-fetched record is dropped, has_next is true exactly when the
store held at least one further matching record beyond the returned page
(the over-fetch produced n + 1 results), and an empty matching set yields
the empty page with has_next false. -/
theorem paginate_overfetch_correct (fm : List (String × String))
    (store : List URec) (n : Nat) (hn : 1 ≤ n) (after : Option Nat)
    (fp : Option FilterParams) :
    (paginate fm store (some n) after fp).1 =
      (matchingRecords fm store after fp).take n ∧
    (paginate fm store (some n) after fp).1.length ≤ n ∧
    ((paginate fm store (some n) after fp).2 = true ↔
      n < (matchingRecords fm store after fp).length) ∧
    (matchingRecords fm store after fp = [] →
      paginate fm store (some n) after fp = ([], false)) := by
  have hne : (n == 0) = false := by
    cases n with
    | zero => omega
    | succ k => rfl
  rw [paginate_some_pos fm store n hne after fp]
  dsimp only
  by_cases hlt : n < (matchingRecords fm store after fp).length
  · have hdec : decide
        (n < ((matchingRecords fm store after fp).take (n + 1)).length) = true := by
      rw [List.length_take]
      exact decide_eq_true (by omega)
    rw [hdec, if_pos rfl]
    refine ⟨dropLast_take_succ _ n hlt, ?_, ?_, ?_⟩
    · rw [dropLast_take_succ _ n hlt, List.length_take]; omega
    · simp [hlt]
    · intro hnil
      rw [hnil] at hlt
      exact absurd hlt (by simp)
  · have hle : (matchingRecords fm store after fp).length ≤ n := by omega
    have htake : (matchingRecords fm store after fp).take (n + 1) =
        matchingRecords fm store after fp :=
      List.take_of_length_le (by omega)
    have hdec : decide
        (n < ((matchingRecords fm store after fp).take (n + 1)).length) = false := by
      rw [htake]
      exact decide_eq_false (by omega)
    rw [hdec, if_neg (by simp), htake]
    refine ⟨(List.take_of_length_le hle).symm, hle, by simp [hlt], ?_⟩
    intro hnil
    rw [hnil]

/-- C1 witness: the theorem applied at page size 1 over a one-user store. -/
theorem paginate_overfetch_correct_witness :
    1 ≤ 1 ∧
    ((paginate [] [alice] (some 1) none none).1 =
      (matchingRecords [] [alice] none none).take 1 ∧
    (paginate [] [alice] (some 1) none none).1.length ≤ 1 ∧
    ((paginate [] [alice] (some 1) none none).2 = true ↔
      1 < (matchingRecords [] [alice] none none).length) ∧
    (matchingRecords [] [alice] none none = [] →
      paginate [] [alice] (some 1) none none = ([], false))) :=
  ⟨Nat.le_refl 1, paginate_overfetch_correct [] [alice] 1 (Nat.le_refl 1) none none⟩

/-- C5 counterexample: a paginate call with page size 0 is not rejected.
It executes the query with the silently substituted default limit of 10 and
returns the matching record, so no InvalidArgument rejection happens. -/
theorem paginate_zero_page_size_executes :
    paginate userFieldMappings [alice] (some 0) none none = ([alice], false) := by
  rfl

/-- C5 amended: paginate performs no page-size validation at all: a page
size of 0 is falsy in Python, so the limit silently becomes the default 10,
exactly as when first is absent, the query executes, and at most 10 records
come back; no InvalidArgument error exists on this path (the REST layer
alone constrains its first parameter to be at least 1). -/
theorem paginate_zero_defaults_to_ten (fm : List (String × String))
    (store : List URec) (after : Option Nat) (fp : Option FilterParams) :
    paginate fm store (some 0) after fp = paginate fm store none after fp ∧
    (paginate fm store (some 0) after fp).1.length ≤ 10 := by
  constructor
  · rfl
  · exact page_items_length_le
      (store.filter (fun u => matchQuery u (buildQuery fm after fp))) 10

/-- C10: patch_user called with a patch that sets no field performs no
write at all: the store comes back unchanged, updated_at included, and the
call answers with a plain lookup of the uuid, which is none when no such
user exists. -/
theorem patch_user_empty_patch_noop (db : DB) (uuid : String) (now : Nat) :
    patch_user db uuid ⟨none, none, none⟩ now = (findUser db uuid, db) := by
  rfl

/-- User A of the friends-pagination scenario, document id 1. -/
def exA : URec := ⟨1, "A", "a@example.com", "Ann", true, 0, 0, "cA", none⟩

/-- User X, document id 2, the first friend A gets. -/
def exX : URec := ⟨2, "X", "x@example.com", "Xan", true, 0, 0, "cX", none⟩

/-- User Y, document id 3, the second friend A gets. -/
def exY : URec := ⟨3, "Y", "y@example.com", "Yve", true, 0, 0, "cY", none⟩

/-- Store where A is friends with X (friendship id 10) and with Y
(friendship id 11): user ids 1 to 3, friendship ids 10 and 11, so every
user id sits below every friendship id as insertion order dictates when
friendships are created after the users they join. -/
def exDB3 : DB :=
  ⟨[exA, exX, exY], [⟨10, "f1", "A", "X", 0⟩, ⟨11, "f2", "A", "Y", 0⟩]⟩

/-- User B for the friendship-creation scenario. -/
def exB : URec := ⟨4, "B", "b@example.com", "Ben", true, 0, 0, "cB", none⟩

/-- Store holding users A and B and no friendship yet. -/
def exDB8 : DB := ⟨[exA, exB], []⟩

/-- User whose referral code is the one the stub generator keeps emitting. -/
def takenUser : URec :=
  ⟨1, "t", "t@example.com", "Tee", true, 0, 0, "taken", none⟩

/-- Store for the referral-code loop check. -/
def exDB7 : DB := ⟨[takenUser], []⟩

/-- Stub token generator that always emits the already-taken code. -/
def constGen : Nat → String := fun _ => "taken"

/-- An inactive user with distinctive timestamps, for the patch check. -/
def inactiveUser : URec :=
  ⟨1, "u9", "nine@example.com", "Old Name", false, 3, 4, "code9", none⟩

/-- Store holding only the inactive user. -/
def exDB9 : DB := ⟨[inactiveUser], []⟩

/-- A patch that sets only the name field. -/
def namePatch : UserPatch := ⟨none, some "New", none⟩

/-- C4 evidence: with both range predicates present, the paginate filter
compiler maps created_after and created_before through the field mappings
to the same key created_at and assigns each as a bare equality, the later
overwriting the former, so the page selects exactly the users with
created_at equal to 10: it returns the user outside the claimed exclusive
upper bound and misses the in-range user, while get_filtered_users_count
compiles the claimed conjunction of strict bounds for the very same filter
and counts exactly the in-range user.  The third conjunct spells out the
record set the claimed range semantics select. -/
theorem range_filter_collapses_in_paginate :
    get_users_with_filters c4store 10 none (some c4fp) none = ([u10], false) ∧
    get_filtered_users_count c4store (some c4fp) = 1 ∧
    c4store.filter
      (fun u => decide (5 < u.created_at) && decide (u.created_at < 10)) = [u7] := by
  refine ⟨?_, ?_, ?_⟩ <;> rfl

/-- C6 evidence: the search term lic occurs case-insensitively in both the
name and the email of the only stored user, yet searching for it returns
the empty page: get_users_with_filters stores the two uncompiled
sub-dicts under the or key, paginate copies them into the query verbatim,
and the resulting query tests the nonexistent document fields
name_contains and email_contains, which no user document has. -/
theorem search_query_selects_nothing :
    containsSub alice.name "lic" = true ∧
    containsSub alice.email "lic" = true ∧
    get_users_with_filters [alice] 10 none none (some "lic") = ([], false) := by
  refine ⟨?_, ?_, ?_⟩ <;> rfl

/-- C2 evidence: get_mutual_friends raises TypeError on every call, for
every store and pair of users: its set comprehension iterates the pair
that get_friends returns instead of unpacking it, and neither the list of
user documents nor the boolean flag supports subscripting with the string
key uuid, so the first iterated element already raises.  The intersection
page the claim describes is never computed. -/
theorem get_mutual_friends_always_crashes (db : DB) (u1 u2 : String)
    (limit : Nat) (cursor : Option Nat) :
    get_mutual_friends db u1 u2 limit cursor = Except.error PyError.typeError := by
  rfl

/-- C3 evidence: on a store where A has friends X and Y, a first page of
size 1 returns X with has_next true and the GraphQL layer issues the
document id of X, namely 2, as the cursor; replaying that cursor makes
get_friends filter friendships by document id greater than 2, which both
friendships (ids 10 and 11) satisfy, so the second page is again X with
has_next true: X is enumerated twice, Y never, refuting the exactly-once
concatenation. -/
theorem get_friends_cursor_roundtrip_bug :
    get_friends exDB3 "A" 1 none = ([exX], true) ∧
    friendsEdgeCursors exDB3 "A" 1 none = [exX.oid] ∧
    get_friends exDB3 "A" 1 (some exX.oid) = ([exX], true) := by
  refine ⟨?_, ?_, ?_⟩ <;> rfl

/-- C7 evidence: when every candidate token the generator produces is
already taken, the while-True loop of the referral-code generator has not
returned after any number of iterations: the source has no retry cap and
no ReferralCodeExhausted failure (its only exit is finding a free token),
so it silently loops forever instead of failing once a bounded budget is
exceeded. -/
theorem referral_code_loop_never_caps (db : DB) (gen : Nat → String)
    (hall : ∀ k, referralCodeFree db (gen k) = false) :
    ∀ start fuel, ensureUniqueFrom db gen start fuel = none := by
  intro start fuel
  induction fuel generalizing start with
  | zero => rfl
  | succ f ih =>
    simp only [ensureUniqueFrom, hall start, Bool.false_eq_true, if_false]
    exact ih (start + 1)

/-- C7 witness: the loop theorem applied to the store holding the constant
token the stub generator keeps producing, observed for five iterations. -/
theorem referral_code_loop_never_caps_witness :
    (∀ k, referralCodeFree exDB7 (constGen k) = false) ∧
    ensureUniqueFrom exDB7 constGen 0 5 = none :=
  ⟨fun _ => rfl, referral_code_loop_never_caps exDB7 constGen (fun _ => rfl) 0 5⟩

/-- Appending an element satisfying the predicate makes find? succeed. -/
theorem find?_append_single_isSome {α : Type} (l : List α) (x : α)
    (p : α → Bool) (hx : p x = true) :
    ((l ++ [x]).find? p).isSome = true := by
  rw [List.find?_append]
  cases h : l.find? p with
  | some a => rfl
  | none =>
    rw [List.find?_cons_of_pos _ hx]
    rfl

/-- A friendship document matching the pair in either ordering makes the
symmetric existence probe succeed on the store that inserted it last. -/
theorem friendshipBetween_append_isSome (db : DB) (fr : FRec) (a b : String)
    (h : ((fr.user1_uuid == a && fr.user2_uuid == b) ||
          (fr.user1_uuid == b && fr.user2_uuid == a)) = true) :
    (friendshipBetween { db with friendships := db.friendships ++ [fr] } a b).isSome
      = true := by
  unfold friendshipBetween
  exact find?_append_single_isSome db.friendships fr _ h

/-- Error shape of send_friend_request when both users exist, the pair is
not a self-pair, and a friendship matching either ordering already exists. -/
theorem send_friend_request_already (db : DB) (a b : String) (oid : Nat)
    (fu : String) (n : Nat) (ha : (findUser db a).isSome = true)
    (hb : (findUser db b).isSome = true) (hne : (a == b) = false)
    (hfb : (friendshipBetween db a b).isSome = true) :
    send_friend_request db a b oid fu n = (Except.error SFRErr.alreadyFriends, db) := by
  obtain ⟨ua, hua⟩ := Option.isSome_iff_exists.mp ha
  obtain ⟨ub, hub⟩ := Option.isSome_iff_exists.mp hb
  obtain ⟨f, hf⟩ := Option.isSome_iff_exists.mp hfb
  simp [send_friend_request, hua, hub, hne, hf]

/-- C8: for existing users A and B, send_friend_request rejects a
self-pair with the self-friendship error, rejects the pair with the
already-friends error whenever a friendship record matching either
ordering exists, leaves the store untouched on every error, and after one
successful creation both the repeated call and the reversed call fail with
the already-friends error against the updated store; a missing endpoint on
either side fails with the user-not-found error. -/
theorem send_friend_request_spec (db : DB) (A B : String)
    (hA : (findUser db A).isSome = true) (hB : (findUser db B).isSome = true) :
    (A = B → ∀ oid fu n, send_friend_request db A B oid fu n =
      (Except.error SFRErr.selfFriendship, db)) ∧
    (A ≠ B → (friendshipBetween db A B).isSome = true →
      ∀ oid fu n, send_friend_request db A B oid fu n =
        (Except.error SFRErr.alreadyFriends, db)) ∧
    (A ≠ B → ∀ oid fu n fr db2,
      send_friend_request db A B oid fu n = (Except.ok fr, db2) →
      ∀ oid2 fu2 n2,
        send_friend_request db2 A B oid2 fu2 n2 =
          (Except.error SFRErr.alreadyFriends, db2) ∧
        send_friend_request db2 B A oid2 fu2 n2 =
          (Except.error SFRErr.alreadyFriends, db2)) ∧
    (∀ C, (findUser db C).isSome = false →
      ∀ oid fu n,
        send_friend_request db A C oid fu n =
          (Except.error SFRErr.userNotFound, db) ∧
        send_friend_request db C B oid fu n =
          (Except.error SFRErr.userNotFound, db)) := by
  obtain ⟨ua, hua⟩ := Option.isSome_iff_exists.mp hA
  obtain ⟨ub, hub⟩ := Option.isSome_iff_exists.mp hB
  refine ⟨?_, ?_, ?_, ?_⟩
  · intro hAB oid fu n
    subst hAB
    simp [send_friend_request, hua]
  · intro hAB hfb oid fu n
    exact send_friend_request_already db A B oid fu n hA hB
      (beq_eq_false_iff_ne.mpr hAB) hfb
  · intro hAB oid fu n fr db2 hok oid2 fu2 n2
    have hABf : (A == B) = false := beq_eq_false_iff_ne.mpr hAB
    have hBAf : (B == A) = false := beq_eq_false_iff_ne.mpr (Ne.symm hAB)
    simp only [send_friend_request, hua, hub, Option.isNone_some, Bool.or_self,
      Bool.false_eq_true, if_false, hABf] at hok
    cases hfb : friendshipBetween db A B with
    | some f =>
      rw [hfb] at hok
      simp at hok
    | none =>
      rw [hfb] at hok
      have hdb2 : db2 =
          { db with friendships := db.friendships ++ [(⟨oid, fu, A, B, n⟩ : FRec)] } := by
        have h2 := congrArg Prod.snd hok
        simpa using h2.symm
      subst hdb2
      have hua2 : findUser
          { db with friendships := db.friendships ++ [(⟨oid, fu, A, B, n⟩ : FRec)] } A
          = some ua := hua
      have hub2 : findUser
          { db with friendships := db.friendships ++ [(⟨oid, fu, A, B, n⟩ : FRec)] } B
          = some ub := hub
      constructor
      · exact send_friend_request_already _ A B oid2 fu2 n2
          (by rw [hua2]; rfl) (by rw [hub2]; rfl) hABf
          (friendshipBetween_append_isSome db _ A B (by simp))
      · exact send_friend_request_already _ B A oid2 fu2 n2
          (by rw [hub2]; rfl) (by rw [hua2]; rfl) hBAf
          (friendshipBetween_append_isSome db _ B A (by simp))
  · intro C hC oid fu n
    have hcn : findUser db C = none := by
      cases h2 : findUser db C with
      | none => rfl
      | some x => rw [h2] at hC; simp at hC
    constructor
    · simp [send_friend_request, hua, hcn]
    · simp [send_friend_request, hub, hcn]

/-- C8 witness: the theorem applied to the store holding users A and B. -/
theorem send_friend_request_spec_witness :
    ((findUser exDB8 "A").isSome = true ∧ (findUser exDB8 "B").isSome = true) ∧
    ((("A" : String) = "B" → ∀ oid fu n, send_friend_request exDB8 "A" "B" oid fu n =
      (Except.error SFRErr.selfFriendship, exDB8)) ∧
    (("A" : String) ≠ "B" → (friendshipBetween exDB8 "A" "B").isSome = true →
      ∀ oid fu n, send_friend_request exDB8 "A" "B" oid fu n =
        (Except.error SFRErr.alreadyFriends, exDB8)) ∧
    (("A" : String) ≠ "B" → ∀ oid fu n fr db2,
      send_friend_request exDB8 "A" "B" oid fu n = (Except.ok fr, db2) →
      ∀ oid2 fu2 n2,
        send_friend_request db2 "A" "B" oid2 fu2 n2 =
          (Except.error SFRErr.alreadyFriends, db2) ∧
        send_friend_request db2 "B" "A" oid2 fu2 n2 =
          (Except.error SFRErr.alreadyFriends, db2)) ∧
    (∀ C, (findUser exDB8 C).isSome = false →
      ∀ oid fu n,
        send_friend_request exDB8 "A" C oid fu n =
          (Except.error SFRErr.userNotFound, exDB8) ∧
        send_friend_request exDB8 C "B" oid fu n =
          (Except.error SFRErr.userNotFound, exDB8))) :=
  ⟨⟨rfl, rfl⟩, send_friend_request_spec exDB8 "A" "B" rfl rfl⟩

/-- Rewriting the first uuid match in place commutes with looking the uuid
up: the lookup of the patched store answers exactly the patched document. -/
theorem findUser_updateFirst (l : List URec) (uuid : String) (p : UserPatch)
    (now : Nat) (u : URec) (h : l.find? (fun x => x.uuid == uuid) = some u) :
    (updateFirst l uuid p now).find? (fun x => x.uuid == uuid) =
      some (applyPatch u p now) := by
  induction l with
  | nil => simp at h
  | cons x xs ih =>
    by_cases hx : (x.uuid == uuid) = true
    · rw [List.find?_cons_of_pos (p := fun (y : URec) => y.uuid == uuid) _ hx] at h
      injection h with h2
      subst h2
      simp only [updateFirst]
      rw [if_pos hx]
      exact List.find?_cons_of_pos (p := fun (y : URec) => y.uuid == uuid) _ hx
    · rw [List.find?_cons_of_neg (p := fun (y : URec) => y.uuid == uuid) _ hx] at h
      simp only [updateFirst]
      rw [if_neg hx, List.find?_cons_of_neg (p := fun (y : URec) => y.uuid == uuid) _ hx]
      exact ih h

/-- C9: patch_user on an existing user overwrites exactly the provided
fields and stamps updated_at, leaving uuid, email when not provided, name
when not provided, is_active when not provided, created_at, referral_code
and referred_by unchanged, in the returned document and in the stored one;
in particular a name-only patch keeps is_active and email as they were.
The last hypothesis keeps the patch clear of the one store-side effect
this function does not contain, the unique email index rejecting a
colliding email with a duplicate-key failure. -/
theorem patch_user_applies_patch (db : DB) (uuid : String) (p : UserPatch)
    (now : Nat) (u : URec) (hu : findUser db uuid = some u)
    (hne : patchIsEmpty p = false)
    ( _hemail : ∀ s, p.email = some s → ∀ v ∈ db.users, v.email ≠ s) :
    (patch_user db uuid p now).1 = some (applyPatch u p now) ∧
    (applyPatch u p now).name = p.name.getD u.name ∧
    (applyPatch u p now).email = p.email.getD u.email ∧
    (applyPatch u p now).is_active = p.is_active.getD u.is_active ∧
    (applyPatch u p now).updated_at = now ∧
    (applyPatch u p now).uuid = u.uuid ∧
    (applyPatch u p now).created_at = u.created_at ∧
    (applyPatch u p now).referral_code = u.referral_code ∧
    (applyPatch u p now).referred_by = u.referred_by ∧
    findUser (patch_user db uuid p now).2 uuid = some (applyPatch u p now) := by
  have h1 : patch_user db uuid p now =
      (some (applyPatch u p now),
       { db with users := updateFirst db.users uuid p now }) := by
    simp [patch_user, hne, hu]
  rw [h1]
  exact ⟨rfl, rfl, rfl, rfl, rfl, rfl, rfl, rfl, rfl,
    findUser_updateFirst db.users uuid p now u hu⟩

/-- C9 witness: a name-only patch at time 5 on the store holding one
inactive user. -/
theorem patch_user_applies_patch_witness :
    (findUser exDB9 "u9" = some inactiveUser ∧
     patchIsEmpty namePatch = false ∧
     (∀ s, namePatch.email = some s → ∀ v ∈ exDB9.users, v.email ≠ s)) ∧
    ((patch_user exDB9 "u9" namePatch 5).1 =
       some (applyPatch inactiveUser namePatch 5) ∧
    (applyPatch inactiveUser namePatch 5).name =
      namePatch.name.getD inactiveUser.name ∧
    (applyPatch inactiveUser namePatch 5).email =
      namePatch.email.getD inactiveUser.email ∧
    (applyPatch inactiveUser namePatch 5).is_active =
      namePatch.is_active.getD inactiveUser.is_active ∧
    (applyPatch inactiveUser namePatch 5).updated_at = 5 ∧
    (applyPatch inactiveUser namePatch 5).uuid = inactiveUser.uuid ∧
    (applyPatch inactiveUser namePatch 5).created_at = inactiveUser.created_at ∧
    (applyPatch inactiveUser namePatch 5).referral_code =
      inactiveUser.referral_code ∧
    (applyPatch inactiveUser namePatch 5).referred_by =
      inactiveUser.referred_by ∧
    findUser (patch_user exDB9 "u9" namePatch 5).2 "u9" =
      some (applyPatch inactiveUser namePatch 5)) :=
  ⟨⟨rfl, rfl, fun _ hs => Option.noConfusion hs⟩,
   patch_user_applies_patch exDB9 "u9" namePatch 5 inactiveUser rfl rfl
     (fun _ hs => Option.noConfusion hs)⟩
